import Mathlib

/-!
Shallow embedding of the prescription-record merge engine of
`src/test_V3.py` (class `PrescriptionExtractor`): the data model
(`Medicine`, `PrescriptionData`), the scalar field reconciler of
`_merge_prescription_data`, and the medicine-list merger
`_merge_medicines`.  Medicine entries travel through the Python code as
JSON dicts, so each schema key is modelled as an `Option String`
(`none` = key absent, mirroring `dict.get`).  The incoming record of
`_merge_prescription_data` is likewise a parsed-JSON dict and is
modelled with optional fields (`NewData`); the accumulated record is
the `PrescriptionData` dataclass whose attributes are always present.

A second, imperative model (`mergeMedicinesImp`) represents the Python
reference/aliasing semantics of `_merge_medicines`: medicine dicts live
in a heap addressed by `Nat` references, the merged list is a list of
references, and the in-place update `merged_medicines[i][key] = value`
is a heap update.  It is used to settle the frame/no-mutation claim.
-/

namespace PrescriptionMerge

/-- Python's `str.strip()` on the underlying character list: drop leading
and trailing whitespace. -/
def trimChars (l : List Char) : List Char :=
  ((l.dropWhile Char.isWhitespace).reverse.dropWhile Char.isWhitespace).reverse

/-- Python `s.lower().strip()`, the normalized medicine-name key
(`med.get('medicine_name', '').lower().strip()` in `_merge_medicines`),
written structurally over the character list so it evaluates inside the
kernel: lower-case every character, then strip surrounding whitespace. -/
def normalize (s : String) : String := String.mk (trimChars (s.data.map Char.toLower))

/-- A medicine entry, as the JSON dict with the four schema keys of the
`Medicine` dataclass; `none` models an absent key. -/
structure Med where
  medicine_name : Option String
  description : Option String
  qty : Option String
  side_effects : Option String
deriving DecidableEq

/-- `asdict(Medicine())`: all four fields hold the sentinel `"none"`. -/
def defaultMedicine : Med := ⟨some "none", some "none", some "none", some "none"⟩

/-- Normalized name of an entry: `med.get('medicine_name', '').lower().strip()`. -/
def Med.normName (m : Med) : String := normalize (m.medicine_name.getD "")

/-- One key of the field-level update loop
`for key, value in new_med.items(): if value != "none" and value: ...`:
a key present in the incoming dict with a truthy, non-sentinel value
overwrites; otherwise the old value stays. -/
def updField (old new : Option String) : Option String :=
  match new with
  | none => old
  | some v => if v ≠ "none" ∧ v ≠ "" then some v else old

/-- The whole field-level update of a matched entry (lines 218-220). -/
def updateMed (old nm : Med) : Med :=
  { medicine_name := updField old.medicine_name nm.medicine_name
    description := updField old.description nm.description
    qty := updField old.qty nm.qty
    side_effects := updField old.side_effects nm.side_effects }

/-- Lines 210-223 of `_merge_medicines`: scan the accumulated list for the
first entry whose normalized name equals `name`; update it in place if
found, else append the incoming entry at the end. -/
def addNew (acc : List Med) (name : String) (nm : Med) : List Med :=
  match acc with
  | [] => [nm]
  | m :: rest =>
      if m.normName = name then updateMed m nm :: rest
      else m :: addNew rest name nm

/-- Lines 200-203: existing entries are carried over unless their
`medicine_name` value is literally `"none"` (an absent key is kept). -/
def keptExisting (existing : List Med) : List Med :=
  existing.filter (fun m => decide (m.medicine_name ≠ some "none"))

/-- One iteration of the `for new_med in new_medicines` loop (lines
206-223): entries whose normalized name is empty or `"none"` are
skipped, otherwise matched-or-appended via `addNew`. -/
def mergeStep (acc : List Med) (nm : Med) : List Med :=
  if nm.normName ≠ "" ∧ nm.normName ≠ "none" then addNew acc nm.normName nm else acc

/-- `_merge_medicines` before its final placeholder fallback. -/
def mergeMedicinesCore (newMeds existingMeds : List Med) : List Med :=
  newMeds.foldl mergeStep (keptExisting existingMeds)

/-- `_merge_medicines` (lines 193-225), including the line-225 fallback
`return merged_medicines if merged_medicines else [asdict(Medicine())]`. -/
def mergeMedicines (newMeds existingMeds : List Med) : List Med :=
  let r := mergeMedicinesCore newMeds existingMeds
  if r = [] then [defaultMedicine] else r

/-- The `PrescriptionData` dataclass: seven scalar fields defaulting to
`"none"`, and `medicines_names` which `__post_init__` defaults to the
empty list. -/
structure PrescriptionData where
  pharmacy_or_doctor_name : String := "none"
  title_or_doctor_details : String := "none"
  contact_details : String := "none"
  date : String := "none"
  address : String := "none"
  rx_number : String := "none"
  store_number : String := "none"
  medicines_names : List Med := []
deriving DecidableEq

/-- `PrescriptionData()`: the record built at construction time
(`__init__`, line 47) and by `reset_data` (line 273). -/
def initialPrescriptionData : PrescriptionData := {}

/-- The parsed-JSON incoming dict of `_merge_prescription_data`; every
key may be absent (`none`), mirroring `new_data.get(field, "none")` and
`new_data.get('medicines_names', [])`. -/
structure NewData where
  pharmacy_or_doctor_name : Option String := none
  title_or_doctor_details : Option String := none
  contact_details : Option String := none
  date : Option String := none
  address : Option String := none
  rx_number : Option String := none
  store_number : Option String := none
  medicines_names : Option (List Med) := none
deriving DecidableEq

/-- The scalar-field reconciliation of `_merge_prescription_data`
(lines 175-183): `new_value = new_data.get(field, "none")`; incoming
wins when not `"none"`, else the existing value when not `"none"`,
else `"none"`. -/
def mergeField (nv : Option String) (ev : String) : String :=
  let n := nv.getD "none"
  if n ≠ "none" then n else if ev ≠ "none" then ev else "none"

/-- `_merge_prescription_data` (lines 167-191). -/
def mergePrescriptionData (nd : NewData) (ed : PrescriptionData) : PrescriptionData :=
  { pharmacy_or_doctor_name := mergeField nd.pharmacy_or_doctor_name ed.pharmacy_or_doctor_name
    title_or_doctor_details := mergeField nd.title_or_doctor_details ed.title_or_doctor_details
    contact_details := mergeField nd.contact_details ed.contact_details
    date := mergeField nd.date ed.date
    address := mergeField nd.address ed.address
    rx_number := mergeField nd.rx_number ed.rx_number
    store_number := mergeField nd.store_number ed.store_number
    medicines_names := mergeMedicines (nd.medicines_names.getD []) ed.medicines_names }

/-! ## Imperative (reference/aliasing) model of `_merge_medicines`

In the Python code the dicts of `merged_medicines` are the very dict
objects of `existing_medicines` and `new_medicines` (appended by
reference), and `merged_medicines[existing_index][key] = value` mutates
such an object in place.  Here medicine dicts live in a heap `Nat → Med`,
the lists hold references, and that statement is a heap update. -/

/-- Store `v` at address `i`. -/
def updateHeap (heap : Nat → Med) (i : Nat) (v : Med) : Nat → Med :=
  fun j => if j = i then v else heap j

/-- The scan of lines 210-214: first reference in the accumulated list
whose entry's normalized name equals `name`. -/
def findMatch (heap : Nat → Med) (merged : List Nat) (name : String) : Option Nat :=
  match merged with
  | [] => none
  | r :: rest => if (heap r).normName = name then some r else findMatch heap rest name

/-- One iteration of the `for new_med in new_medicines` loop over the
state (heap, merged reference list): on a match, the matched entry is
updated in place on the heap; otherwise the incoming reference itself
is appended. -/
def stepImp (st : (Nat → Med) × List Nat) (r : Nat) : (Nat → Med) × List Nat :=
  if (st.1 r).normName ≠ "" ∧ (st.1 r).normName ≠ "none" then
    match findMatch st.1 st.2 (st.1 r).normName with
    | some i => (updateHeap st.1 i (updateMed (st.1 i) (st.1 r)), st.2)
    | none => (st.1, st.2 ++ [r])
  else st

/-- `_merge_medicines` over the reference model: result is the final
heap together with the merged list of references (initially the kept
existing references, by the line 200-203 filter). -/
def mergeMedicinesImp (heap : Nat → Med) (newRefs existingRefs : List Nat) :
    (Nat → Med) × List Nat :=
  newRefs.foldl stepImp
    (heap, existingRefs.filter (fun r => decide ((heap r).medicine_name ≠ some "none")))

/-- A two-object heap: address 0 holds an existing entry named "a",
address 1 an incoming entry named "A" carrying a quantity. -/
def heapA : Nat → Med := fun n =>
  if n = 0 then ⟨some "a", none, none, none⟩
  else if n = 1 then ⟨some "A", none, some "5", none⟩
  else defaultMedicine

/-- `asdict(PrescriptionData())` as an incoming dict: every scalar key
present with the sentinel `"none"`, `medicines_names` present and empty. -/
def emptyIncoming : NewData :=
  { pharmacy_or_doctor_name := some "none", title_or_doctor_details := some "none",
    contact_details := some "none", date := some "none", address := some "none",
    rx_number := some "none", store_number := some "none", medicines_names := some [] }

/-! ## Helper lemmas -/

theorem mergeField_none_left (e : String) : mergeField none e = e := by
  by_cases he : e = "none" <;> simp [mergeField, he]

theorem mergeField_sentinel_left (e : String) : mergeField (some "none") e = e := by
  by_cases he : e = "none" <;> simp [mergeField, he]

theorem updField_some (o : Option String) (v : String) (hv1 : v ≠ "none") (hv2 : v ≠ "") :
    updField o (some v) = some v := by
  simp [updField, hv1, hv2]

theorem updField_sentinel (o : Option String) : updField o (some "none") = o := by
  simp [updField]

theorem updateMed_normName (m nm : Med) (h1 : nm.normName ≠ "") (h2 : nm.normName ≠ "none") :
    (updateMed m nm).normName = nm.normName := by
  rcases hn : nm.medicine_name with _ | v
  · exact absurd (by simp only [Med.normName, hn, Option.getD_none]; decide) h1
  · have hv2 : v ≠ "" := fun hv => h1 (by simp only [Med.normName, hn, Option.getD_some, hv]; decide)
    have hv1 : v ≠ "none" := fun hv => h2 (by simp only [Med.normName, hn, Option.getD_some, hv]; decide)
    simp only [Med.normName, updateMed, updField, hn]
    rw [if_pos ⟨hv1, hv2⟩]

theorem addNew_append_match (pre : List Med) (m : Med) (post : List Med) (nm : Med)
    (hpre : ∀ x ∈ pre, x.normName ≠ nm.normName) (hm : m.normName = nm.normName) :
    addNew (pre ++ m :: post) nm.normName nm = pre ++ updateMed m nm :: post := by
  induction pre with
  | nil => simp [addNew, hm]
  | cons a as ih =>
      have ha : a.normName ≠ nm.normName := hpre a (List.mem_cons_self a as)
      simp only [List.cons_append, addNew, if_neg ha, List.cons.injEq, true_and]
      exact ih fun x hx => hpre x (List.mem_cons_of_mem a hx)

theorem addNew_no_match (acc : List Med) (nm : Med)
    (h : ∀ x ∈ acc, x.normName ≠ nm.normName) :
    addNew acc nm.normName nm = acc ++ [nm] := by
  induction acc with
  | nil => rfl
  | cons a as ih =>
      simp only [addNew, if_neg (h a (List.mem_cons_self a as)), List.cons_append,
        List.cons.injEq, true_and]
      exact ih fun x hx => h x (List.mem_cons_of_mem a hx)

theorem addNew_names (acc : List Med) (nm : Med)
    (h1 : nm.normName ≠ "") (h2 : nm.normName ≠ "none") :
    (addNew acc nm.normName nm).map Med.normName = acc.map Med.normName
    ∨ ((∀ x ∈ acc, x.normName ≠ nm.normName) ∧ addNew acc nm.normName nm = acc ++ [nm]) := by
  induction acc with
  | nil => exact Or.inr ⟨by simp, rfl⟩
  | cons a as ih =>
      by_cases ha : a.normName = nm.normName
      · left
        simp [addNew, ha, updateMed_normName a nm h1 h2]
      · rcases ih with hmap | ⟨hall, heq⟩
        · left
          simp only [addNew, if_neg ha, List.map_cons, hmap]
        · right
          refine ⟨fun x hx => ?_, ?_⟩
          · rcases List.mem_cons.mp hx with rfl | hx
            · exact ha
            · exact hall x hx
          · simp only [addNew, if_neg ha, heq, List.cons_append]

theorem mergeStep_skip (acc : List Med) (nm : Med)
    (h : nm.normName = "" ∨ nm.normName = "none") : mergeStep acc nm = acc := by
  rcases h with h | h <;> simp [mergeStep, h]

theorem foldl_mergeStep_names (newMeds : List Med) : ∀ acc : List Med,
    ∃ s : List Med, s.Sublist newMeds ∧
      (newMeds.foldl mergeStep acc).map Med.normName
        = acc.map Med.normName ++ s.map Med.normName := by
  induction newMeds with
  | nil => exact fun acc => ⟨[], List.nil_sublist [], by simp⟩
  | cons nm rest ih =>
      intro acc
      by_cases hg : nm.normName ≠ "" ∧ nm.normName ≠ "none"
      · have hstep : mergeStep acc nm = addNew acc nm.normName nm := by
          simp [mergeStep, hg]
        rcases addNew_names acc nm hg.1 hg.2 with hmap | ⟨hall, heq⟩
        · rcases ih (addNew acc nm.normName nm) with ⟨s, hs, hmapf⟩
          refine ⟨s, List.Sublist.cons nm hs, ?_⟩
          rw [List.foldl_cons, hstep, hmapf, hmap]
        · rcases ih (acc ++ [nm]) with ⟨s, hs, hmapf⟩
          refine ⟨nm :: s, List.Sublist.cons₂ nm hs, ?_⟩
          rw [List.foldl_cons, hstep, heq, hmapf]
          simp
      · have h : nm.normName = "" ∨ nm.normName = "none" := by
          by_cases h1 : nm.normName = ""
          · exact Or.inl h1
          · exact Or.inr (by_contra fun h2 => hg ⟨h1, h2⟩)
        rcases ih acc with ⟨s, hs, hmapf⟩
        refine ⟨s, List.Sublist.cons nm hs, ?_⟩
        rw [List.foldl_cons, mergeStep_skip acc nm h, hmapf]

theorem foldl_mergeStep_nodup (newMeds : List Med) : ∀ acc : List Med,
    (acc.map Med.normName).Nodup → ((newMeds.foldl mergeStep acc).map Med.normName).Nodup := by
  induction newMeds with
  | nil => exact fun acc h => h
  | cons nm rest ih =>
      intro acc h
      by_cases hg : nm.normName ≠ "" ∧ nm.normName ≠ "none"
      · have hstep : mergeStep acc nm = addNew acc nm.normName nm := by
          simp [mergeStep, hg]
        rcases addNew_names acc nm hg.1 hg.2 with hmap | ⟨hall, heq⟩
        · rw [List.foldl_cons, hstep]
          exact ih _ (by rw [hmap]; exact h)
        · rw [List.foldl_cons, hstep, heq]
          refine ih _ ?_
          rw [List.map_append]
          refine List.nodup_append.mpr ⟨h, by simp, ?_⟩
          intro x hx hx1
          rcases List.mem_map.mp hx with ⟨y, hy, rfl⟩
          have : y.normName = nm.normName := by simpa using hx1
          exact hall y hy this
      · have h0 : nm.normName = "" ∨ nm.normName = "none" := by
          by_cases h1 : nm.normName = ""
          · exact Or.inl h1
          · exact Or.inr (by_contra fun h2 => hg ⟨h1, h2⟩)
        rw [List.foldl_cons, mergeStep_skip acc nm h0]
        exact ih acc h

theorem findMatch_mem (heap : Nat → Med) (merged : List Nat) (name : String) (i : Nat)
    (h : findMatch heap merged name = some i) : i ∈ merged := by
  induction merged with
  | nil => simp [findMatch] at h
  | cons r rest ih =>
      rw [findMatch] at h
      by_cases hr : (heap r).normName = name
      · simp only [if_pos hr, Option.some.injEq] at h
        exact h ▸ List.mem_cons_self r rest
      · rw [if_neg hr] at h
        exact List.mem_cons_of_mem r (ih h)

theorem stepImp_merged_mono (st : (Nat → Med) × List Nat) (a : Nat) :
    ∀ j ∈ st.2, j ∈ (stepImp st a).2 := by
  intro j hj
  unfold stepImp
  split
  · split
    · exact hj
    · exact List.mem_append_left _ hj
  · exact hj

theorem stepImp_heap_change (st : (Nat → Med) × List Nat) (a j : Nat)
    (h : (stepImp st a).1 j ≠ st.1 j) : j ∈ st.2 := by
  unfold stepImp at h
  split at h
  · split at h
    · next i hm =>
        by_cases hji : j = i
        · exact hji ▸ findMatch_mem st.1 st.2 _ i hm
        · exact absurd (by simp [updateHeap, hji]) h
    · exact absurd rfl h
  · exact absurd rfl h

theorem foldl_stepImp_merged_mono (l : List Nat) :
    ∀ st : (Nat → Med) × List Nat, ∀ j ∈ st.2, j ∈ (l.foldl stepImp st).2 := by
  induction l with
  | nil => exact fun st j hj => hj
  | cons a rest ih =>
      intro st j hj
      rw [List.foldl_cons]
      exact ih _ j (stepImp_merged_mono st a j hj)

theorem foldl_stepImp_heap_change (l : List Nat) :
    ∀ (st : (Nat → Med) × List Nat) (j : Nat),
      (l.foldl stepImp st).1 j ≠ st.1 j → j ∈ (l.foldl stepImp st).2 := by
  induction l with
  | nil => intro st j h; exact absurd rfl h
  | cons a rest ih =>
      intro st j h
      rw [List.foldl_cons] at h ⊢
      by_cases h2 : (rest.foldl stepImp (stepImp st a)).1 j = (stepImp st a).1 j
      · have h3 : (stepImp st a).1 j ≠ st.1 j := by rw [← h2]; exact h
        exact foldl_stepImp_merged_mono rest _ j
          (stepImp_merged_mono st a j (stepImp_heap_change st a j h3))
      · exact ih _ j h2

/-! ## Claims -/

/-- Claim C1: for each of the seven scalar fields, when the incoming
dict carries the field, the merged field is the incoming value when it
is not `"none"`, else the existing value when that is not `"none"`,
else `"none"`. -/
theorem scalar_fields_last_write_wins (a b c d e f g : String) (ms : Option (List Med))
    (ed : PrescriptionData) :
    (mergePrescriptionData ⟨some a, some b, some c, some d, some e, some f, some g, ms⟩
        ed).pharmacy_or_doctor_name
      = (if a ≠ "none" then a
         else if ed.pharmacy_or_doctor_name ≠ "none" then ed.pharmacy_or_doctor_name else "none")
    ∧ (mergePrescriptionData ⟨some a, some b, some c, some d, some e, some f, some g, ms⟩
        ed).title_or_doctor_details
      = (if b ≠ "none" then b
         else if ed.title_or_doctor_details ≠ "none" then ed.title_or_doctor_details else "none")
    ∧ (mergePrescriptionData ⟨some a, some b, some c, some d, some e, some f, some g, ms⟩
        ed).contact_details
      = (if c ≠ "none" then c
         else if ed.contact_details ≠ "none" then ed.contact_details else "none")
    ∧ (mergePrescriptionData ⟨some a, some b, some c, some d, some e, some f, some g, ms⟩
        ed).date
      = (if d ≠ "none" then d else if ed.date ≠ "none" then ed.date else "none")
    ∧ (mergePrescriptionData ⟨some a, some b, some c, some d, some e, some f, some g, ms⟩
        ed).address
      = (if e ≠ "none" then e else if ed.address ≠ "none" then ed.address else "none")
    ∧ (mergePrescriptionData ⟨some a, some b, some c, some d, some e, some f, some g, ms⟩
        ed).rx_number
      = (if f ≠ "none" then f else if ed.rx_number ≠ "none" then ed.rx_number else "none")
    ∧ (mergePrescriptionData ⟨some a, some b, some c, some d, some e, some f, some g, ms⟩
        ed).store_number
      = (if g ≠ "none" then g else if ed.store_number ≠ "none" then ed.store_number else "none") :=
  ⟨rfl, rfl, rfl, rfl, rfl, rfl, rfl⟩

/-- Claim C2 counterexample: merging the all-sentinel empty record into
the freshly constructed record does not return it unchanged — the
medicine list comes back as the one-element placeholder, not as the
empty list the fresh record holds. -/
theorem noop_merge_counterexample :
    mergePrescriptionData emptyIncoming initialPrescriptionData ≠ initialPrescriptionData := by
  decide

/-- Claim C2 (amended): merging the all-sentinel empty record into R
returns R, provided R's medicine list is non-empty and contains no
entry whose `medicine_name` value is literally `"none"`. -/
theorem noop_merge_amended (R : PrescriptionData)
    (hne : R.medicines_names ≠ [])
    (hnames : ∀ m ∈ R.medicines_names, m.medicine_name ≠ some "none") :
    mergePrescriptionData emptyIncoming R = R := by
  have hkept : keptExisting R.medicines_names = R.medicines_names := by
    rw [keptExisting, List.filter_eq_self]
    intro m hm
    exact decide_eq_true (hnames m hm)
  have hmeds : mergeMedicines [] R.medicines_names = R.medicines_names := by
    have hcore : mergeMedicinesCore [] R.medicines_names = R.medicines_names := by
      unfold mergeMedicinesCore
      rw [List.foldl_nil, hkept]
    simp only [mergeMedicines, hcore, if_neg hne]
  rcases R with ⟨a, b, c, d, e, f, g, meds⟩
  simp [mergePrescriptionData, emptyIncoming, mergeField_sentinel_left, hmeds]

theorem noop_merge_amended_witness :
    mergePrescriptionData emptyIncoming
        ⟨"CVS", "none", "none", "none", "none", "none", "none",
          [⟨some "Amoxicillin", none, some "30 tabs", none⟩]⟩
      = ⟨"CVS", "none", "none", "none", "none", "none", "none",
          [⟨some "Amoxicillin", none, some "30 tabs", none⟩]⟩ :=
  noop_merge_amended _ (by decide) (by decide)

/-- Claim C3 counterexample: when the existing list itself holds two
entries with the same normalized name, both survive the merge, so the
result has a duplicate normalized name. -/
theorem duplicate_names_counterexample :
    ¬ ((mergeMedicines [] [⟨some "a", none, none, none⟩, ⟨some "a", none, none, none⟩]).map
        Med.normName).Nodup := by decide

/-- Claim C3 (amended): whenever the existing list has pairwise-distinct
normalized names, the merged list has no two entries with equal
normalized names. -/
theorem no_duplicate_normalized_names (newMeds exMeds : List Med)
    (h : (exMeds.map Med.normName).Nodup) :
    ((mergeMedicines newMeds exMeds).map Med.normName).Nodup := by
  have hkept : ((keptExisting exMeds).map Med.normName).Nodup :=
    h.sublist (List.Sublist.map Med.normName (List.filter_sublist exMeds))
  by_cases hc : mergeMedicinesCore newMeds exMeds = []
  · simp [mergeMedicines, hc]
  · simp only [mergeMedicines, if_neg hc]
    exact foldl_mergeStep_nodup newMeds _ hkept

theorem no_duplicate_normalized_names_witness :
    ((mergeMedicines [⟨some "Metformin", none, none, none⟩]
        [⟨some "Lisinopril", none, none, none⟩]).map Med.normName).Nodup :=
  no_duplicate_normalized_names _ _ (by decide)

/-- Claim C4 counterexample: the imperative model of the merge mutates
an input in place.  Address 0 holds the single entry of the existing
list; after merging an incoming entry with the same normalized name,
the object at address 0 no longer holds its original value — the
existing record was changed by the call. -/
theorem merge_mutates_existing_entry :
    (mergeMedicinesImp heapA [1] [0]).1 0 ≠ heapA 0 := by decide

/-- Claim C4 (amended): the merge never rebinds its inputs and every
in-place mutation it performs hits only medicine entries that are
aliased into the merged result: any address whose content changed is a
member of the returned reference list. -/
theorem merge_mutation_confined_to_result (heap : Nat → Med) (newRefs existingRefs : List Nat)
    (j : Nat) (h : (mergeMedicinesImp heap newRefs existingRefs).1 j ≠ heap j) :
    j ∈ (mergeMedicinesImp heap newRefs existingRefs).2 :=
  foldl_stepImp_heap_change newRefs _ j h

theorem merge_mutation_confined_witness :
    0 ∈ (mergeMedicinesImp heapA [1] [0]).2 :=
  merge_mutation_confined_to_result heapA [1] [0] 0 (by decide)

/-- Claim C5: when the incoming entry matches the result entry `m` (same
normalized name, first match in scan order), that entry is replaced by
the field-level update, in which every incoming field that is neither
the sentinel `"none"` nor empty overwrites, and every incoming sentinel
field leaves the matched entry's value untouched. -/
theorem matched_entry_update (ex pre post : List Med) (m nm : Med)
    (hex : keptExisting ex = pre ++ m :: post)
    (hpre : ∀ x ∈ pre, x.normName ≠ nm.normName)
    (hm : m.normName = nm.normName)
    (h1 : nm.normName ≠ "") (h2 : nm.normName ≠ "none") :
    mergeMedicinesCore [nm] ex = pre ++ updateMed m nm :: post
    ∧ (∀ v, nm.medicine_name = some v → v ≠ "none" → v ≠ "" →
        (updateMed m nm).medicine_name = some v)
    ∧ (nm.medicine_name = some "none" → (updateMed m nm).medicine_name = m.medicine_name)
    ∧ (∀ v, nm.description = some v → v ≠ "none" → v ≠ "" →
        (updateMed m nm).description = some v)
    ∧ (nm.description = some "none" → (updateMed m nm).description = m.description)
    ∧ (∀ v, nm.qty = some v → v ≠ "none" → v ≠ "" → (updateMed m nm).qty = some v)
    ∧ (nm.qty = some "none" → (updateMed m nm).qty = m.qty)
    ∧ (∀ v, nm.side_effects = some v → v ≠ "none" → v ≠ "" →
        (updateMed m nm).side_effects = some v)
    ∧ (nm.side_effects = some "none" → (updateMed m nm).side_effects = m.side_effects) := by
  refine ⟨?_, ?_, ?_, ?_, ?_, ?_, ?_, ?_, ?_⟩
  · have hc : mergeMedicinesCore [nm] ex = mergeStep (keptExisting ex) nm := rfl
    rw [hc, hex]
    have hstep : mergeStep (pre ++ m :: post) nm = addNew (pre ++ m :: post) nm.normName nm := by
      simp [mergeStep, h1, h2]
    rw [hstep]
    exact addNew_append_match pre m post nm hpre hm
  · intro v hv hv1 hv2
    show updField m.medicine_name nm.medicine_name = some v
    rw [hv]; exact updField_some _ v hv1 hv2
  · intro hv
    show updField m.medicine_name nm.medicine_name = m.medicine_name
    rw [hv]; exact updField_sentinel _
  · intro v hv hv1 hv2
    show updField m.description nm.description = some v
    rw [hv]; exact updField_some _ v hv1 hv2
  · intro hv
    show updField m.description nm.description = m.description
    rw [hv]; exact updField_sentinel _
  · intro v hv hv1 hv2
    show updField m.qty nm.qty = some v
    rw [hv]; exact updField_some _ v hv1 hv2
  · intro hv
    show updField m.qty nm.qty = m.qty
    rw [hv]; exact updField_sentinel _
  · intro v hv hv1 hv2
    show updField m.side_effects nm.side_effects = some v
    rw [hv]; exact updField_some _ v hv1 hv2
  · intro hv
    show updField m.side_effects nm.side_effects = m.side_effects
    rw [hv]; exact updField_sentinel _

theorem matched_entry_update_witness :
    mergeMedicinesCore [⟨some "AMOXICILLIN", none, some "none", some "drowsiness"⟩]
        [⟨some "Amoxicillin", none, some "30 tabs", none⟩]
      = [updateMed ⟨some "Amoxicillin", none, some "30 tabs", none⟩
          ⟨some "AMOXICILLIN", none, some "none", some "drowsiness"⟩] :=
  (matched_entry_update [⟨some "Amoxicillin", none, some "30 tabs", none⟩] [] []
      ⟨some "Amoxicillin", none, some "30 tabs", none⟩
      ⟨some "AMOXICILLIN", none, some "none", some "drowsiness"⟩
      (by decide) (by simp) (by decide) (by decide) (by decide)).1

/-- Claim C6: retained existing entries keep their original relative
order at the front of the merged list, and the appended incoming
entries follow them in incoming relative order — stated on the
normalized-name spine: the merged names are exactly the kept existing
names followed by the names of an in-order sublist of the incoming
list. -/
theorem order_preservation (newMeds exMeds : List Med)
    (h : mergeMedicinesCore newMeds exMeds ≠ []) :
    ∃ s : List Med, s.Sublist newMeds ∧
      (mergeMedicines newMeds exMeds).map Med.normName
        = (keptExisting exMeds).map Med.normName ++ s.map Med.normName := by
  rcases foldl_mergeStep_names newMeds (keptExisting exMeds) with ⟨s, hs, hmap⟩
  exact ⟨s, hs, by simp only [mergeMedicines, if_neg h]; exact hmap⟩

theorem order_preservation_witness :
    ∃ s : List Med, s.Sublist [⟨some "Metformin", none, none, none⟩] ∧
      (mergeMedicines [⟨some "Metformin", none, none, none⟩]
          [⟨some "Lisinopril", none, none, none⟩]).map Med.normName
        = (keptExisting [⟨some "Lisinopril", none, none, none⟩]).map Med.normName
          ++ s.map Med.normName :=
  order_preservation _ _ (by decide)

/-- Claim C7: the merged medicine list is never empty; when the merge
would otherwise produce the empty sequence it returns the single
all-sentinel placeholder, and both `mergeMedicines [] []` and the
merge of two placeholder-only lists yield exactly that placeholder
list. -/
theorem merged_medicines_never_empty :
    (∀ newMeds exMeds : List Med,
        mergeMedicines newMeds exMeds ≠ [] ∧
        (mergeMedicinesCore newMeds exMeds = [] →
          mergeMedicines newMeds exMeds = [defaultMedicine]))
    ∧ mergeMedicines [] [] = [defaultMedicine]
    ∧ mergeMedicines [defaultMedicine] [defaultMedicine] = [defaultMedicine] := by
  refine ⟨fun newMeds exMeds => ?_, by decide, by decide⟩
  by_cases hc : mergeMedicinesCore newMeds exMeds = [] <;> simp [mergeMedicines, hc]

theorem merged_medicines_never_empty_witness :
    mergeMedicines [] [] = [defaultMedicine] ∧ mergeMedicines [] [] ≠ [] :=
  ⟨(merged_medicines_never_empty.1 [] []).2 rfl, (merged_medicines_never_empty.1 [] []).1⟩

/-- Claim C8: an incoming entry whose normalized name is empty or the
sentinel `"none"` is skipped entirely: the merge result equals the
merge of the incoming list with that entry removed. -/
theorem degenerate_entry_skipped (e : Med) (pre post exMeds : List Med)
    (h : e.normName = "" ∨ e.normName = "none") :
    mergeMedicines (pre ++ e :: post) exMeds = mergeMedicines (pre ++ post) exMeds := by
  have hcore : mergeMedicinesCore (pre ++ e :: post) exMeds
      = mergeMedicinesCore (pre ++ post) exMeds := by
    unfold mergeMedicinesCore
    rw [List.foldl_append, List.foldl_append, List.foldl_cons, mergeStep_skip _ e h]
  simp only [mergeMedicines, hcore]

theorem degenerate_entry_skipped_witness :
    mergeMedicines [defaultMedicine, ⟨some "Aspirin", none, none, none⟩] []
      = mergeMedicines [⟨some "Aspirin", none, none, none⟩] [] :=
  degenerate_entry_skipped defaultMedicine [] [⟨some "Aspirin", none, none, none⟩] []
    (by decide)

/-- Claim C9 counterexample: a freshly constructed record does not hold
the single all-sentinel placeholder entry — its medicine list is the
empty list (`__post_init__` turns `None` into `[]`). -/
theorem fresh_record_placeholder_counterexample :
    initialPrescriptionData.medicines_names ≠ [defaultMedicine] := by decide

/-- Claim C9 (amended): a freshly constructed record (as produced at
session start by `PrescriptionExtractor.__init__` and by `reset_data`)
has every scalar field `"none"` and its medicine collection equal to
the empty list. -/
theorem fresh_record_all_sentinel :
    initialPrescriptionData.pharmacy_or_doctor_name = "none"
    ∧ initialPrescriptionData.title_or_doctor_details = "none"
    ∧ initialPrescriptionData.contact_details = "none"
    ∧ initialPrescriptionData.date = "none"
    ∧ initialPrescriptionData.address = "none"
    ∧ initialPrescriptionData.rx_number = "none"
    ∧ initialPrescriptionData.store_number = "none"
    ∧ initialPrescriptionData.medicines_names = [] :=
  ⟨rfl, rfl, rfl, rfl, rfl, rfl, rfl, rfl⟩

/-- Claim C10: a scalar key absent from the incoming dict preserves the
existing field value (exactly as the sentinel would), and an absent
`medicines_names` key behaves as an empty incoming medicine list;
absent keys never raise and never overwrite. -/
theorem absent_keys_preserved (nd : NewData) (ed : PrescriptionData) :
    (nd.pharmacy_or_doctor_name = none →
        (mergePrescriptionData nd ed).pharmacy_or_doctor_name = ed.pharmacy_or_doctor_name)
    ∧ (nd.title_or_doctor_details = none →
        (mergePrescriptionData nd ed).title_or_doctor_details = ed.title_or_doctor_details)
    ∧ (nd.contact_details = none →
        (mergePrescriptionData nd ed).contact_details = ed.contact_details)
    ∧ (nd.date = none → (mergePrescriptionData nd ed).date = ed.date)
    ∧ (nd.address = none → (mergePrescriptionData nd ed).address = ed.address)
    ∧ (nd.rx_number = none → (mergePrescriptionData nd ed).rx_number = ed.rx_number)
    ∧ (nd.store_number = none →
        (mergePrescriptionData nd ed).store_number = ed.store_number)
    ∧ (nd.medicines_names = none →
        (mergePrescriptionData nd ed).medicines_names
          = mergeMedicines [] ed.medicines_names) := by
  refine ⟨?_, ?_, ?_, ?_, ?_, ?_, ?_, ?_⟩
  · intro h
    show mergeField nd.pharmacy_or_doctor_name ed.pharmacy_or_doctor_name
      = ed.pharmacy_or_doctor_name
    rw [h, mergeField_none_left]
  · intro h
    show mergeField nd.title_or_doctor_details ed.title_or_doctor_details
      = ed.title_or_doctor_details
    rw [h, mergeField_none_left]
  · intro h
    show mergeField nd.contact_details ed.contact_details = ed.contact_details
    rw [h, mergeField_none_left]
  · intro h
    show mergeField nd.date ed.date = ed.date
    rw [h, mergeField_none_left]
  · intro h
    show mergeField nd.address ed.address = ed.address
    rw [h, mergeField_none_left]
  · intro h
    show mergeField nd.rx_number ed.rx_number = ed.rx_number
    rw [h, mergeField_none_left]
  · intro h
    show mergeField nd.store_number ed.store_number = ed.store_number
    rw [h, mergeField_none_left]
  · intro h
    show mergeMedicines (nd.medicines_names.getD []) ed.medicines_names
      = mergeMedicines [] ed.medicines_names
    rw [h, Option.getD_none]

theorem absent_keys_preserved_witness :
    (mergePrescriptionData {} ⟨"CVS", "none", "none", "none", "none", "none", "none",
        [⟨some "Amoxicillin", none, none, none⟩]⟩).pharmacy_or_doctor_name = "CVS"
    ∧ (mergePrescriptionData {} ⟨"CVS", "none", "none", "none", "none", "none", "none",
        [⟨some "Amoxicillin", none, none, none⟩]⟩).medicines_names
      = mergeMedicines [] [⟨some "Amoxicillin", none, none, none⟩] :=
  ⟨(absent_keys_preserved {} _).1 rfl,
   (absent_keys_preserved {} _).2.2.2.2.2.2.2 rfl⟩

end PrescriptionMerge
